import Mathlib

/-!
Verification of the apt_scanner scrape–enrich–reconcile pipeline.

This file shallowly embeds the core of the repository's backend:
* the `Listing` rows of `app/models.py` and the `ScrapedListing` dataclass of
  `app/scrapers/base.py`;
* `save_listings_to_db` from `app/services/scraper_service.py`
  (the reconciliation engine);
* `mark_offmarket_listings`, `reactivate_listing` and
  `get_active_external_ids` from `app/services/offmarket_service.py`;
* the coverage gate of `app/scripts/scheduled_scrape.py`;
* `get_neighborhood` from `app/services/geo.py`;
* the scroll/pagination loop `CraigslistScraper.scrape_batch`, the image
  gallery extraction and laundry classification of
  `CraigslistScraper._fetch_detail_page`, and the price filters of
  `CraigslistScraper._scrape_page` and `StreetEasyScraper.scrape`.

The database is modelled as an in-memory list of rows, timestamps as `Nat`,
Python floats as `ℚ` (the code only copies them and tests them for zero), and
Python sets of ids as `Finset String`.  Fallible/optional values are `Option`.
-/

set_option autoImplicit false

namespace AptScanner

/-- A persisted listing row (the `Listing` ORM model of `app/models.py`).
The surrogate integer primary key is not modelled; row identity is positional
in the store list. -/
structure Listing where
  external_id : String
  source : String
  url : String
  title : String
  price : Int
  bedrooms : Int
  bathrooms : ℚ
  neighborhood : String
  neighborhood_nta : String
  latitude : Option ℚ
  longitude : Option ℚ
  address : String
  sqft : Option Int
  laundry_type : Option String
  amenities : List String
  images : List String
  description : Option String
  first_seen : Nat
  last_seen : Nat
  is_active : Bool
  deactivated_at : Option Nat
  last_scrape_run_id : Option Int
  created_at : Nat
  deriving DecidableEq, Repr

/-- The `ScrapedListing` dataclass of `app/scrapers/base.py`.  `laundry_type`
is set dynamically on the dataclass instance by the detail fetcher, so it is
modelled as an optional field. -/
structure ScrapedListing where
  external_id : String
  source : String
  url : String
  title : String
  price : Int
  bedrooms : Int
  bathrooms : ℚ
  neighborhood : String
  address : String
  sqft : Option Int
  amenities : List String
  images : List String
  description : Option String
  latitude : Option ℚ
  longitude : Option ℚ
  laundry_type : Option String
  deriving DecidableEq, Repr

/-- The persisted store: the `listings` table as a list of rows. -/
abbrev Store := List Listing

/-- Python truthiness of an `Optional[float]`: `None` and `0.0` are falsy. -/
def optQTruthy : Option ℚ → Bool
  | none => false
  | some x => x != 0

/-- Python truthiness of an `Optional[str]`: `None` and `""` are falsy. -/
def optStrTruthy : Option String → Bool
  | none => false
  | some s => s != ""

/-- The SQLAlchemy filter `Listing.source == item.source,
Listing.external_id == item.external_id` used to look up a row by key. -/
def keyMatch (source external_id : String) (l : Listing) : Bool :=
  l.source == source && l.external_id == external_id

/-- The key of a persisted row. -/
def lkey (l : Listing) : String × String := (l.source, l.external_id)

/-- The key of a scraped item. -/
def skey (i : ScrapedListing) : String × String := (i.source, i.external_id)

/-- Replace the first element satisfying `p` by its image under `f`
(the effect of mutating the row returned by `query(...).first()`). -/
def updateFirst {α : Type} (p : α → Bool) (f : α → α) : List α → List α
  | [] => []
  | x :: xs => if p x then f x :: xs else x :: updateFirst p f xs

/-- The update branch of `save_listings_to_db` (`scraper_service.py`,
lines 33–51): refresh `last_seen`, `price`, activity and run stamp, and
conditionally refresh images, coordinates, neighborhood and laundry type. -/
def applyUpdate (now : Nat) (runId : Option Int) (item : ScrapedListing)
    (l : Listing) : Listing :=
  { l with
    last_seen := now
    price := item.price
    is_active := true
    deactivated_at := none
    last_scrape_run_id := runId
    images := if item.images ≠ [] then item.images else l.images
    latitude := if optQTruthy item.latitude then item.latitude else l.latitude
    longitude := if optQTruthy item.longitude then item.longitude else l.longitude
    neighborhood := if item.neighborhood ≠ "" then item.neighborhood else l.neighborhood
    neighborhood_nta := if item.neighborhood ≠ "" then item.neighborhood else l.neighborhood_nta
    laundry_type := if optStrTruthy item.laundry_type then item.laundry_type else l.laundry_type }

/-- The insert branch of `save_listings_to_db` (`scraper_service.py`,
lines 52–78).  `deactivated_at` is left at its column default `null`, and
`created_at` at its column default `utcnow`. -/
def mkNewListing (now : Nat) (runId : Option Int) (item : ScrapedListing) : Listing :=
  { external_id := item.external_id
    source := item.source
    url := item.url
    title := item.title
    price := item.price
    bedrooms := item.bedrooms
    bathrooms := item.bathrooms
    neighborhood := item.neighborhood
    neighborhood_nta := item.neighborhood
    latitude := item.latitude
    longitude := item.longitude
    address := item.address
    sqft := item.sqft
    laundry_type := item.laundry_type
    amenities := item.amenities
    images := item.images
    description := item.description
    first_seen := now
    last_seen := now
    is_active := true
    deactivated_at := none
    last_scrape_run_id := runId
    created_at := now }

/-- Effect of one loop iteration of `save_listings_to_db` on the store alone:
look the item up by `(source, external_id)`; update the found row, or append a
new one. -/
def saveItem (now : Nat) (runId : Option Int) (st : Store) (item : ScrapedListing) : Store :=
  match st.find? (keyMatch item.source item.external_id) with
  | some _ => updateFirst (keyMatch item.source item.external_id)
      (applyUpdate now runId item) st
  | none => st ++ [mkNewListing now runId item]

/-- Accumulator of `save_listings_to_db`: `(new_count, updated_count,
scraped_external_ids, store)`. -/
abbrev SaveAcc := Nat × Nat × Finset String × Store

/-- One loop iteration of `save_listings_to_db` with its counters. -/
def saveStep (now : Nat) (runId : Option Int) (acc : SaveAcc) (item : ScrapedListing) :
    SaveAcc :=
  let ids := insert item.external_id acc.2.2.1
  match acc.2.2.2.find? (keyMatch item.source item.external_id) with
  | some _ =>
      (acc.1, acc.2.1 + 1, ids,
        updateFirst (keyMatch item.source item.external_id)
          (applyUpdate now runId item) acc.2.2.2)
  | none =>
      (acc.1 + 1, acc.2.1, ids, acc.2.2.2 ++ [mkNewListing now runId item])

/-- `save_listings_to_db` (`app/services/scraper_service.py`): reconcile a
batch of scraped listings into the store.  Returns
`(new_count, updated_count, scraped_external_ids, store)`. -/
def save_listings_to_db (now : Nat) (runId : Option Int)
    (scraped : List ScrapedListing) (st : Store) : SaveAcc :=
  scraped.foldl (saveStep now runId) (0, 0, ∅, st)

/-- The bulk-update filter of `mark_offmarket_listings`
(`offmarket_service.py`, lines 42–47): same source, external id among the
disappeared ones, and still active. -/
def offmarketPred (source : String) (disappeared : Finset String) (l : Listing) : Bool :=
  l.source == source && decide (l.external_id ∈ disappeared) && l.is_active

/-- The row mutation of the off-market bulk update
(`offmarket_service.py`, lines 48–55). -/
def offmarketSet (now : Nat) (runId : Option Int) (l : Listing) : Listing :=
  { l with is_active := false, deactivated_at := some now, last_scrape_run_id := runId }

/-- `mark_offmarket_listings` (`app/services/offmarket_service.py`): mark
every still-active listing of `source` that was active before but absent from
the current scrape as off-market, in one bulk update.  Returns the affected
row count and the new store. -/
def mark_offmarket_listings (now : Nat) (source : String)
    (active_before scraped_ids : Finset String) (runId : Option Int)
    (st : Store) : Nat × Store :=
  if active_before \ scraped_ids = ∅ then (0, st)
  else
    ((st.filter (offmarketPred source (active_before \ scraped_ids))).length,
     st.map (fun l => if offmarketPred source (active_before \ scraped_ids) l then
       offmarketSet now runId l else l))

/-- `reactivate_listing` (`app/services/offmarket_service.py`): no-op when the
listing is absent or already active, otherwise reactivate it.  Returns whether
a reactivation happened, and the new store. -/
def reactivate_listing (now : Nat) (source external_id : String)
    (runId : Option Int) (st : Store) : Bool × Store :=
  match st.find? (keyMatch source external_id) with
  | none => (false, st)
  | some l =>
      if l.is_active then (false, st)
      else
        (true,
         updateFirst (keyMatch source external_id)
           (fun l => { l with is_active := true, deactivated_at := none,
                              last_seen := now, last_scrape_run_id := runId }) st)

/-- `get_active_external_ids` (`app/services/offmarket_service.py`): the set
of external ids of active listings of a source. -/
def get_active_external_ids (source : String) (st : Store) : Finset String :=
  ((st.filter (fun l => l.source == source && l.is_active)).map
    (fun l => l.external_id)).toFinset

/-- The coverage ratio of `run_scheduled_scrape`
(`app/scripts/scheduled_scrape.py`, line 85):
`len(scraped_ids) / len(active_before) if active_before else 1.0`. -/
def coverage_ratio (active_before scraped_ids : Finset String) : ℚ :=
  if active_before = ∅ then 1
  else (scraped_ids.card : ℚ) / (active_before.card : ℚ)

/-- The gated off-market phase of `run_scheduled_scrape`
(`app/scripts/scheduled_scrape.py`, lines 85–96): deactivate only when the
coverage ratio is at least one half, otherwise do nothing and report 0. -/
def run_offmarket_phase (now : Nat) (source : String)
    (active_before scraped_ids : Finset String) (runId : Option Int)
    (st : Store) : Nat × Store :=
  if coverage_ratio active_before scraped_ids ≥ 1/2 then
    mark_offmarket_listings now source active_before scraped_ids runId st
  else
    (0, st)

/-! ## Geospatial classifier (`app/services/geo.py`) -/

/-- One entry of the loaded polygon cache: `(name, borough, polygon)`.  The
polygon geometry is abstracted as its containment test on `(x, y) = (lon, lat)`
points, the only operation `get_neighborhood` performs on it. -/
structure Nbhd where
  name : String
  borough : String
  containsPt : ℚ × ℚ → Bool

/-- The containment loop of `get_neighborhood` (`geo.py`, lines 58–65):
return the name of the first polygon containing the point. -/
def lookupNbhd (pt : ℚ × ℚ) : List Nbhd → Option String
  | [] => none
  | nb :: rest => if nb.containsPt pt then some nb.name else lookupNbhd pt rest

/-- `get_neighborhood` (`app/services/geo.py`): resolve `(lat, lon)` against
the polygon cache in load order; the point handed to each polygon is
`(lon, lat)`. -/
def get_neighborhood (polys : List Nbhd) (lat lon : ℚ) : Option String :=
  if polys.isEmpty then none
  else lookupNbhd (lon, lat) polys

/-! ## Scroll/pagination driver (`CraigslistScraper.scrape_batch`) -/

/-- State of the scroll loop of `scrape_batch` (`craigslist.py`,
lines 274–308): collected listings, the ids seen so far, the consecutive-empty
counter and the scroll counter. -/
structure ScrollState where
  all : List ScrapedListing
  seen : List String
  empty_pages : Nat
  scroll_count : Nat
  deriving DecidableEq, Repr

/-- The per-view dedup fold of `scrape_batch` (`craigslist.py`,
lines 313–317): keep the listings whose external id has not been seen, adding
ids as they are kept.  Returns `(new_listings, seen')`. -/
def collectNew (seen : List String) (page : List ScrapedListing) :
    List ScrapedListing × List String :=
  page.foldl
    (fun acc l =>
      if acc.2.contains l.external_id then acc
      else (acc.1 ++ [l], acc.2 ++ [l.external_id]))
    ([], seen)

/-- One iteration body of the scroll loop (`craigslist.py`, lines 308–342):
extract the current view, fold in the unseen listings, update the
consecutive-empty counter, scroll. -/
def scrollIter (pages : Nat → List ScrapedListing) (st : ScrollState) : ScrollState :=
  let res := collectNew st.seen (pages st.scroll_count)
  if res.1 ≠ [] then
    { all := st.all ++ res.1, seen := res.2, empty_pages := 0,
      scroll_count := st.scroll_count + 1 }
  else
    { all := st.all, seen := res.2, empty_pages := st.empty_pages + 1,
      scroll_count := st.scroll_count + 1 }

/-- The scroll loop of `scrape_batch` with an explicit iteration budget:
`while len(all) < max_listings and empty_pages < max_empty_pages and
scroll_count < max_scrolls`.  Each iteration increments `scroll_count`, so
`max_scrolls - scroll_count` bounds the remaining iterations; `scrollLoop`
passes exactly that as fuel, which makes the recursion structural without
changing the loop's behaviour. -/
def scrollGo (pages : Nat → List ScrapedListing)
    (max_listings max_empty max_scrolls : Nat) : Nat → ScrollState → ScrollState
  | 0, st => st
  | fuel + 1, st =>
    if st.all.length < max_listings ∧ st.empty_pages < max_empty ∧
        st.scroll_count < max_scrolls then
      scrollGo pages max_listings max_empty max_scrolls fuel (scrollIter pages st)
    else st

/-- The scroll loop of `scrape_batch` (`craigslist.py`, lines 301–342).
`pages n` is the list of listings the page extractor produces from the view
after `n` scrolls. -/
def scrollLoop (pages : Nat → List ScrapedListing)
    (max_listings max_empty max_scrolls : Nat) (st : ScrollState) : ScrollState :=
  scrollGo pages max_listings max_empty max_scrolls
    (max_scrolls - st.scroll_count) st

/-- `scrape_batch` (`app/scrapers/craigslist.py`, lines 261–354) as seen by
its caller: run the scroll loop with the source's constants
(`max_empty_pages = 8`, `max_scrolls = 200`) from the empty state and return
the collected listings.  No exhaustion flag is part of the result. -/
def scrape_batch (pages : Nat → List ScrapedListing) (max_listings : Nat) :
    List ScrapedListing :=
  (scrollLoop pages max_listings 8 200 ⟨[], [], 0, 0⟩).all

/-! ## Image gallery extraction (`CraigslistScraper._fetch_detail_page`) -/

/-- Match the regex `_\d+x\d+\.` at the head of the character list; on success
return the characters after the match.  (`\d+` is greedy, and since digits and
`x` are disjoint the greedy match is the maximal digit run.) -/
def matchSizePat : List Char → Option (List Char)
  | '_' :: rest =>
    let s1 := rest.span Char.isDigit
    if s1.1 = [] then none
    else
      match s1.2 with
      | 'x' :: r2 =>
        let s2 := r2.span Char.isDigit
        if s2.1 = [] then none
        else
          match s2.2 with
          | '.' :: r4 => some r4
          | _ => none
      | _ => none
  | _ => none

/-- `re.sub(r'_\d+x\d+\.', '_600x450.', src)` on the character list: scan left
to right, replacing every non-overlapping occurrence of the size pattern and
never rescanning replacement text.  The fuel argument (instantiated with the
list length, which bounds the number of steps) makes the recursion
structural. -/
def subSizeAux : Nat → List Char → List Char
  | 0, l => l
  | _ + 1, [] => []
  | fuel + 1, c :: rest =>
    match matchSizePat (c :: rest) with
    | some rem => "_600x450.".toList ++ subSizeAux fuel rem
    | none => c :: subSizeAux fuel rest

/-- The thumbnail upgrade `src = re.sub(r'_\d+x\d+\.', '_600x450.', src)`
(`craigslist.py`, line 161). -/
def upgradeUrl (s : String) : String :=
  String.mk (subSizeAux s.toList.length s.toList)

/-- The gallery fold of `_fetch_detail_page` (`craigslist.py`,
lines 153–163): for each img element's `src` attribute, if it is present, not
a data URI and not already in the collected list, append its upgraded form.
The membership test compares the raw `src` against the already-upgraded
entries, exactly as the code does. -/
def extractImages (srcs : List (Option String)) : List String :=
  srcs.foldl
    (fun images src? =>
      match src? with
      | none => images
      | some src =>
        if src != "" && !(List.isPrefixOf "data:".toList src.toList)
            && !(images.contains src) then
          images ++ [upgradeUrl src]
        else images)
    []

/-! ## Laundry classification (`CraigslistScraper._fetch_detail_page`) -/

/-- Lowercase a Python string (ASCII case folding suffices for the keyword
tests involved). -/
def lowerChars (s : String) : List Char :=
  s.toList.map Char.toLower

/-- Python's substring test `pat in t` on character lists: `pat` occurs as a
contiguous run of `t`. -/
def hasSub (pat : List Char) : List Char → Bool
  | [] => List.isPrefixOf pat []
  | c :: rest => List.isPrefixOf pat (c :: rest) || hasSub pat rest

/-- `"w/d in unit" in text or "washer/dryer in unit" in text`. -/
def inUnitKw (t : List Char) : Bool :=
  hasSub "w/d in unit".toList t || hasSub "washer/dryer in unit".toList t

/-- `"laundry in bldg" in text or "laundry on site" in text`. -/
def buildingKw (t : List Char) : Bool :=
  hasSub "laundry in bldg".toList t || hasSub "laundry on site".toList t

/-- `"no laundry" in text`. -/
def noLaundryKw (t : List Char) : Bool :=
  hasSub "no laundry".toList t

/-- A string matches some laundry keyword. -/
def anyLaundryKw (t : List Char) : Bool :=
  inUnitKw t || buildingKw t || noLaundryKw t

/-- The class assigned to a single matching string by the `if/elif` chain. -/
def classifyOne (t : List Char) : String :=
  if inUnitKw t then "in_unit" else if buildingKw t then "building" else "none"

/-- The laundry loop of `_fetch_detail_page` (`craigslist.py`,
lines 182–193): walk the attribute strings in page order; on the first string
matching any keyword, assign its class (testing in-unit, then building, then
none within that string) and `break`; if no string matches, leave the laundry
type unset. -/
def classifyLaundry : List String → Option String
  | [] => none
  | t :: rest =>
    let lt := lowerChars t
    if inUnitKw lt then some "in_unit"
    else if buildingKw lt then some "building"
    else if noLaundryKw lt then some "none"
    else classifyLaundry rest

/-! ## Price filters (`_scrape_page` and `StreetEasyScraper.scrape`) -/

/-- The result filter of `CraigslistScraper._scrape_page` (`craigslist.py`,
lines 247–259): keep each successfully extracted listing whose price is
positive and whose external id has not appeared earlier on the page. -/
def scrapePageFilter (extracted : List (Option ScrapedListing)) :
    List ScrapedListing :=
  (extracted.foldl
    (fun (acc : List ScrapedListing × List String) o =>
      match o with
      | none => acc
      | some l =>
        if l.price > 0 && !(acc.2.contains l.external_id) then
          (acc.1 ++ [l], acc.2 ++ [l.external_id])
        else acc)
    ([], [])).1

/-- The card filter of `StreetEasyScraper.scrape` (`streeteasy.py`,
lines 179–182): keep each successfully extracted card whose price is
positive. -/
def streeteasyCardFilter (cards : List (Option ScrapedListing)) :
    List ScrapedListing :=
  cards.foldl
    (fun acc o =>
      match o with
      | none => acc
      | some l => if l.price > 0 then acc ++ [l] else acc)
    []

/-! ## Lemmas: geospatial lookup -/

lemma lookupNbhd_eq_none (pt : ℚ × ℚ) (polys : List Nbhd) :
    lookupNbhd pt polys = none ↔ ∀ nb ∈ polys, nb.containsPt pt = false := by
  induction polys with
  | nil => simp [lookupNbhd]
  | cons nb rest ih =>
    by_cases h : nb.containsPt pt
    · simp [lookupNbhd, h]
    · simp only [Bool.not_eq_true] at h
      simp [lookupNbhd, h, ih]

lemma lookupNbhd_first (pt : ℚ × ℚ) :
    ∀ (polys : List Nbhd) (i : Nat) (hi : i < polys.length),
      (polys.get ⟨i, hi⟩).containsPt pt = true →
      (∀ j (hj : j < i), (polys.get ⟨j, Nat.lt_trans hj hi⟩).containsPt pt = false) →
      lookupNbhd pt polys = some (polys.get ⟨i, hi⟩).name := by
  intro polys
  induction polys with
  | nil => intro i hi; exact absurd hi (Nat.not_lt_zero i)
  | cons nb rest ih =>
    intro i hi hc hprev
    cases i with
    | zero => simp [lookupNbhd, List.get_cons_zero] at hc ⊢; simp [hc]
    | succ i' =>
      have h0 : nb.containsPt pt = false := hprev 0 (Nat.succ_pos i')
      have hi' : i' < rest.length := Nat.lt_of_succ_lt_succ hi
      have hrest := ih i' hi' hc (fun j hj => hprev (j + 1) (Nat.succ_lt_succ hj))
      simpa [lookupNbhd, h0] using hrest

/-- C6: for every point and polygon list, `get_neighborhood` returns the name
of the first polygon in load order containing the point `(lon, lat)`, `none`
when no polygon contains it, and repeated calls on the same point return the
same result. -/
theorem get_neighborhood_first_match (polys : List Nbhd) (lat lon : ℚ) :
    (get_neighborhood polys lat lon = none ↔
      ∀ nb ∈ polys, nb.containsPt (lon, lat) = false)
    ∧ (∀ i (hi : i < polys.length),
        (polys.get ⟨i, hi⟩).containsPt (lon, lat) = true →
        (∀ j (hj : j < i),
          (polys.get ⟨j, Nat.lt_trans hj hi⟩).containsPt (lon, lat) = false) →
        get_neighborhood polys lat lon = some (polys.get ⟨i, hi⟩).name)
    ∧ (∀ lat' lon', lat' = lat → lon' = lon →
        get_neighborhood polys lat' lon' = get_neighborhood polys lat lon) := by
  refine ⟨?_, ?_, ?_⟩
  · cases polys with
    | nil => simp [get_neighborhood]
    | cons nb rest =>
      simpa [get_neighborhood] using lookupNbhd_eq_none (lon, lat) (nb :: rest)
  · intro i hi hc hprev
    cases polys with
    | nil => exact absurd hi (Nat.not_lt_zero i)
    | cons nb rest =>
      simpa [get_neighborhood] using
        lookupNbhd_first (lon, lat) (nb :: rest) i hi hc hprev
  · intro lat' lon' h1 h2
    rw [h1, h2]

/-- Demonstration polygon: the strip `0 ≤ lon ≤ 2`. -/
def nbhdAlpha : Nbhd :=
  ⟨"alpha", "demo", fun p => decide (0 ≤ p.1 ∧ p.1 ≤ 2)⟩

/-- Demonstration polygon overlapping `nbhdAlpha`: the strip `1 ≤ lon ≤ 3`. -/
def nbhdBeta : Nbhd :=
  ⟨"beta", "demo", fun p => decide (1 ≤ p.1 ∧ p.1 ≤ 3)⟩

theorem get_neighborhood_first_match_witness :
    nbhdAlpha.containsPt ((3 : ℚ)/2, 0) = true ∧
    nbhdBeta.containsPt ((3 : ℚ)/2, 0) = true ∧
    get_neighborhood [nbhdAlpha, nbhdBeta] 0 ((3 : ℚ)/2) = some "alpha" := by
  refine ⟨by norm_num [nbhdAlpha], by norm_num [nbhdBeta], ?_⟩
  have h := (get_neighborhood_first_match [nbhdAlpha, nbhdBeta] 0 ((3 : ℚ)/2)).2.1
    0 (by norm_num) (by norm_num [nbhdAlpha])
    (fun j hj => absurd hj (Nat.not_lt_zero j))
  simpa [nbhdAlpha] using h

/-! ## Lemmas: price filters -/

lemma scrapePageFilter_mem_price (extracted : List (Option ScrapedListing)) :
    ∀ l ∈ scrapePageFilter extracted, l.price > 0 := by
  suffices h : ∀ (ext : List (Option ScrapedListing))
      (acc : List ScrapedListing × List String),
      (∀ l ∈ acc.1, l.price > 0) →
      ∀ l ∈ (ext.foldl
        (fun (acc : List ScrapedListing × List String) o =>
          match o with
          | none => acc
          | some l =>
            if l.price > 0 && !(acc.2.contains l.external_id) then
              (acc.1 ++ [l], acc.2 ++ [l.external_id])
            else acc)
        acc).1, l.price > 0 by
    intro l hl
    exact h extracted ([], []) (by simp) l hl
  intro ext
  induction ext with
  | nil => intro acc hacc; exact hacc
  | cons o rest ih =>
    intro acc hacc
    cases o with
    | none => exact ih acc hacc
    | some l =>
      simp only [List.foldl_cons]
      by_cases hc : (l.price > 0 && !(acc.2.contains l.external_id)) = true
      · simp only [hc, if_true]
        refine ih _ ?_
        intro x hx
        rcases List.mem_append.mp hx with hx | hx
        · exact hacc x hx
        · have := List.mem_singleton.mp hx
          subst this
          have := (Bool.and_eq_true _ _).mp hc
          exact of_decide_eq_true this.1
      · simp only [Bool.not_eq_true] at hc
        simp only [hc, if_false]
        exact ih acc hacc

lemma streeteasyCardFilter_mem_price (cards : List (Option ScrapedListing)) :
    ∀ l ∈ streeteasyCardFilter cards, l.price > 0 := by
  suffices h : ∀ (cs : List (Option ScrapedListing)) (acc : List ScrapedListing),
      (∀ l ∈ acc, l.price > 0) →
      ∀ l ∈ cs.foldl
        (fun acc o =>
          match o with
          | none => acc
          | some l => if l.price > 0 then acc ++ [l] else acc)
        acc, l.price > 0 by
    intro l hl
    exact h cards [] (by simp) l hl
  intro cs
  induction cs with
  | nil => intro acc hacc; exact hacc
  | cons o rest ih =>
    intro acc hacc
    cases o with
    | none => exact ih acc hacc
    | some l =>
      simp only [List.foldl_cons]
      by_cases hc : l.price > 0
      · simp only [hc, if_true]
        refine ih _ ?_
        intro x hx
        rcases List.mem_append.mp hx with hx | hx
        · exact hacc x hx
        · have := List.mem_singleton.mp hx
          subst this
          exact hc
      · simp only [hc, if_false]
        exact ih acc hacc

/-- C10: every listing surviving the Craigslist page filter or the StreetEasy
card filter has a strictly positive price — candidates whose price parsed to
zero are dropped. -/
theorem scraped_price_positive (extracted cards : List (Option ScrapedListing)) :
    (∀ l ∈ scrapePageFilter extracted, l.price > 0) ∧
    (∀ l ∈ streeteasyCardFilter cards, l.price > 0) :=
  ⟨scrapePageFilter_mem_price extracted, streeteasyCardFilter_mem_price cards⟩

/-- A concrete scraped listing used by the demonstration witnesses. -/
def demoItem : ScrapedListing :=
  { external_id := "7001", source := "craigslist", url := "u", title := "t"
    price := 2500, bedrooms := 1, bathrooms := 1, neighborhood := ""
    address := "", sqft := none, amenities := [], images := []
    description := none, latitude := none, longitude := none
    laundry_type := none }

theorem scraped_price_positive_witness :
    demoItem ∈ scrapePageFilter [some demoItem] ∧ demoItem.price > 0 :=
  ⟨by decide,
   (scraped_price_positive [some demoItem] []).1 demoItem (by decide)⟩

/-! ## Lemmas: laundry classification -/

/-- C9 counterexample: in `["laundry in bldg", "w/d in unit"]` some string
matches an in-unit keyword, yet the code classifies the listing as
`building`, because the earlier string matched first and the loop breaks —
the priority is per string, not global. -/
theorem laundry_global_priority_refuted :
    (∃ t ∈ ["laundry in bldg", "w/d in unit"], inUnitKw (lowerChars t) = true) ∧
    classifyLaundry ["laundry in bldg", "w/d in unit"] ≠ some "in_unit" ∧
    classifyLaundry ["laundry in bldg", "w/d in unit"] = some "building" := by
  decide

/-- C9 (amended): the classifier walks the attribute strings in order and
returns, for the first string matching any laundry keyword, the class given
by the per-string priority in_unit > building > none (`classifyOne`); when no
string matches, no laundry type is assigned. -/
theorem laundry_first_string_priority (texts : List String) :
    (texts.find? (fun s => anyLaundryKw (lowerChars s)) = none →
      classifyLaundry texts = none)
    ∧ (∀ t, texts.find? (fun s => anyLaundryKw (lowerChars s)) = some t →
        classifyLaundry texts = some (classifyOne (lowerChars t))) := by
  induction texts with
  | nil => exact ⟨fun _ => rfl, fun t h => by simp at h⟩
  | cons t rest ih =>
    by_cases h : anyLaundryKw (lowerChars t) = true
    · refine ⟨fun hn => ?_, fun t' h' => ?_⟩
      · simp only [List.find?_cons, h] at hn
        exact absurd hn (by simp)
      · simp only [List.find?_cons, h] at h'
        have ht : t = t' := by simpa using h'
        subst ht
        by_cases hiu : inUnitKw (lowerChars t) = true
        · simp [classifyLaundry, classifyOne, hiu]
        · simp only [Bool.not_eq_true] at hiu
          by_cases hb : buildingKw (lowerChars t) = true
          · simp [classifyLaundry, classifyOne, hiu, hb]
          · simp only [Bool.not_eq_true] at hb
            have hnl : noLaundryKw (lowerChars t) = true := by
              revert h; simp [anyLaundryKw, hiu, hb]
            simp [classifyLaundry, classifyOne, hiu, hb, hnl]
    · simp only [Bool.not_eq_true] at h
      have hiu : inUnitKw (lowerChars t) = false := by
        revert h; simp [anyLaundryKw]; tauto
      have hb : buildingKw (lowerChars t) = false := by
        revert h; simp [anyLaundryKw]; tauto
      have hn : noLaundryKw (lowerChars t) = false := by
        revert h; simp [anyLaundryKw]
      refine ⟨fun h0 => ?_, fun t' h' => ?_⟩
      · simp only [List.find?_cons, h] at h0
        simpa [classifyLaundry, hiu, hb, hn] using ih.1 h0
      · simp only [List.find?_cons, h] at h'
        simpa [classifyLaundry, hiu, hb, hn] using ih.2 t' h'

theorem laundry_first_string_priority_witness :
    List.find? (fun s => anyLaundryKw (lowerChars s)) ["pets ok", "w/d in unit"]
      = some "w/d in unit" ∧
    classifyLaundry ["pets ok", "w/d in unit"] = some "in_unit" := by
  refine ⟨by decide, ?_⟩
  have h := (laundry_first_string_priority ["pets ok", "w/d in unit"]).2
    "w/d in unit" (by decide)
  rw [h]
  decide

/-! ## Image extraction evaluation -/

/-- C8: the gallery extraction is not deduplicated as claimed: the membership
test compares the raw `src` against already-upgraded entries, so the same
thumbnail URL appearing twice yields the upgraded URL twice in the output
(declared intent of the `src not in images` check notwithstanding). -/
theorem extractImages_duplicate_eval :
    extractImages [some "a_50x50.jpg", some "a_50x50.jpg"] =
      ["a_600x450.jpg", "a_600x450.jpg"] ∧
    ¬ (extractImages [some "a_50x50.jpg", some "a_50x50.jpg"]).Nodup := by
  decide

/-! ## Lemmas: off-market bulk update -/

lemma offmarketSet_pred_false (now : Nat) (runId : Option Int) (source : String)
    (D : Finset String) (l : Listing) :
    offmarketPred source D (offmarketSet now runId l) = false := by
  simp [offmarketPred, offmarketSet]

/-- C5: the off-market bulk update counts and modifies exactly the
still-active rows of the source whose id disappeared, in one pass setting
`is_active := false`, `deactivated_at := now`, `last_scrape_run_id := runId`;
re-applying the call to its own result affects 0 rows and leaves every
listing unchanged. -/
theorem mark_offmarket_idempotent (now now' : Nat) (source : String)
    (active_before scraped_ids : Finset String) (runId runId' : Option Int)
    (st : Store) :
    (mark_offmarket_listings now source active_before scraped_ids runId st).1
      = (st.filter (offmarketPred source (active_before \ scraped_ids))).length
    ∧ (mark_offmarket_listings now source active_before scraped_ids runId st).2
      = st.map (fun l =>
          if offmarketPred source (active_before \ scraped_ids) l then
            offmarketSet now runId l else l)
    ∧ mark_offmarket_listings now' source active_before scraped_ids runId'
        (mark_offmarket_listings now source active_before scraped_ids runId st).2
      = (0, (mark_offmarket_listings now source active_before scraped_ids runId st).2) := by
  by_cases hD : active_before \ scraped_ids = ∅
  · have hpred : ∀ l : Listing,
        offmarketPred source (∅ : Finset String) l = false := by
      intro l; simp [offmarketPred]
    have hf : st.filter (offmarketPred source (∅ : Finset String)) = [] :=
      List.filter_eq_nil_iff.mpr (fun l _ => by simp [hpred l])
    refine ⟨?_, ?_, ?_⟩
    · simp [mark_offmarket_listings, hD, hf]
    · simp [mark_offmarket_listings, hD, hpred]
    · simp [mark_offmarket_listings, hD]
  · have h1 : (mark_offmarket_listings now source active_before scraped_ids runId st).2
        = st.map (fun l =>
            if offmarketPred source (active_before \ scraped_ids) l then
              offmarketSet now runId l else l) := by
      simp [mark_offmarket_listings, hD]
    have hall : ∀ l ∈ (mark_offmarket_listings now source active_before
        scraped_ids runId st).2,
        offmarketPred source (active_before \ scraped_ids) l = false := by
      rw [h1]
      intro l hl
      rcases List.mem_map.mp hl with ⟨l₀, _, rfl⟩
      by_cases hp : offmarketPred source (active_before \ scraped_ids) l₀ = true
      · rw [if_pos hp]
        exact offmarketSet_pred_false now runId source _ l₀
      · simp only [Bool.not_eq_true] at hp
        rw [if_neg (by simp [hp])]
        exact hp
    refine ⟨by simp [mark_offmarket_listings, hD], h1, ?_⟩
    have hfilter : ((mark_offmarket_listings now source active_before
        scraped_ids runId st).2.filter
          (offmarketPred source (active_before \ scraped_ids))) = [] :=
      List.filter_eq_nil_iff.mpr (fun l hl => by simp [hall l hl])
    have hmap : ((mark_offmarket_listings now source active_before
        scraped_ids runId st).2.map (fun l =>
          if offmarketPred source (active_before \ scraped_ids) l then
            offmarketSet now' runId' l else l))
        = (mark_offmarket_listings now source active_before
            scraped_ids runId st).2 := by
      have h := List.map_congr_left
        (l := (mark_offmarket_listings now source active_before scraped_ids
          runId st).2)
        (f := fun l => if offmarketPred source (active_before \ scraped_ids) l
          then offmarketSet now' runId' l else l)
        (g := fun l => l)
        (fun l hl => by simp [hall l hl])
      simpa using h
    have hsecond : mark_offmarket_listings now' source active_before scraped_ids
        runId' (mark_offmarket_listings now source active_before scraped_ids
          runId st).2
        = (((mark_offmarket_listings now source active_before scraped_ids
              runId st).2.filter
                (offmarketPred source (active_before \ scraped_ids))).length,
           (mark_offmarket_listings now source active_before scraped_ids
              runId st).2.map (fun l =>
                if offmarketPred source (active_before \ scraped_ids) l then
                  offmarketSet now' runId' l else l)) := by
      simp [mark_offmarket_listings, hD]
    rw [hsecond, hfilter, hmap]
    rfl

/-! ## Lemmas: the coverage-gated off-market count -/

lemma offmarketPred_split (source : String) (D : Finset String) (l : Listing) :
    offmarketPred source D l
      = (decide (l.external_id ∈ D) && (l.source == source && l.is_active)) := by
  unfold offmarketPred
  cases l.source == source <;> cases l.is_active <;> simp

lemma filter_mem_length_of_nodup (es : List String) (D : Finset String)
    (h : es.Nodup) (hsub : D ⊆ es.toFinset) :
    (es.filter (fun e => decide (e ∈ D))).length = D.card := by
  calc (es.filter (fun e => decide (e ∈ D))).length
      = (es.filter (fun e => decide (e ∈ D))).toFinset.card :=
        (List.toFinset_card_of_nodup (h.filter _)).symm
    _ = (es.toFinset.filter (fun e => decide (e ∈ D) = true)).card := by
        rw [List.toFinset_filter]
    _ = (es.toFinset.filter (fun e => e ∈ D)).card := by
        congr 1
        exact Finset.filter_congr (fun e _ => by simp)
    _ = (es.toFinset ∩ D).card := by rw [Finset.filter_mem_eq_inter]
    _ = D.card := by rw [Finset.inter_eq_right.mpr hsub]

lemma offmarket_filter_length (source : String) (D : Finset String) (st : Store)
    (huniq : (st.map lkey).Nodup)
    (hsub : D ⊆ get_active_external_ids source st) :
    (st.filter (offmarketPred source D)).length = D.card := by
  have h1 : st.filter (offmarketPred source D)
      = (st.filter (fun l => l.source == source && l.is_active)).filter
          (fun l => decide (l.external_id ∈ D)) := by
    rw [List.filter_filter]
    exact List.filter_congr (fun l _ => offmarketPred_split source D l)
  have hcomp : (st.filter (fun l => l.source == source && l.is_active)).filter
        ((fun e => decide (e ∈ D)) ∘ (fun l : Listing => l.external_id))
      = (st.filter (fun l => l.source == source && l.is_active)).filter
          (fun l => decide (l.external_id ∈ D)) :=
    List.filter_congr (fun l _ => rfl)
  have hlkey : ((st.filter (fun l => l.source == source && l.is_active)).map
      lkey).Nodup :=
    ((List.filter_sublist st).map lkey).nodup huniq
  have hsrc : ∀ l ∈ st.filter (fun l => l.source == source && l.is_active),
      l.source = source := by
    intro l hl
    have h := (List.mem_filter.mp hl).2
    have h1 := (Bool.and_eq_true _ _).mp h
    exact eq_of_beq h1.1
  have hnodup : ((st.filter (fun l => l.source == source && l.is_active)).map
      (fun l : Listing => l.external_id)).Nodup := by
    refine List.Nodup.map_on ?_ (List.Nodup.of_map lkey hlkey)
    intro x hx y hy hxy
    have hinj := List.inj_on_of_nodup_map hlkey
    refine hinj hx hy ?_
    unfold lkey
    rw [hsrc x hx, hsrc y hy, hxy]
  have hsubes : D ⊆ ((st.filter (fun l => l.source == source && l.is_active)).map
      (fun l : Listing => l.external_id)).toFinset := hsub
  calc (st.filter (offmarketPred source D)).length
      = ((st.filter (fun l => l.source == source && l.is_active)).filter
          (fun l => decide (l.external_id ∈ D))).length := by rw [h1]
    _ = ((st.filter (fun l => l.source == source && l.is_active)).filter
          ((fun e => decide (e ∈ D)) ∘ (fun l : Listing => l.external_id))).length := by
        rw [hcomp]
    _ = (((st.filter (fun l => l.source == source && l.is_active)).filter
          ((fun e => decide (e ∈ D)) ∘ (fun l : Listing => l.external_id))).map
            (fun l : Listing => l.external_id)).length :=
        (List.length_map _ _).symm
    _ = (((st.filter (fun l => l.source == source && l.is_active)).map
          (fun l : Listing => l.external_id)).filter
            (fun e => decide (e ∈ D))).length := by
        rw [List.filter_map]
    _ = D.card := filter_mem_length_of_nodup _ D hnodup hsubes

lemma coverage_ratio_iff (ab si : Finset String) :
    (coverage_ratio ab si ≥ 1/2) ↔
      ((si.card : ℚ) / (ab.card : ℚ) ≥ 1/2 ∨ ab = ∅) := by
  unfold coverage_ratio
  by_cases h : ab = ∅
  · rw [if_pos h]
    constructor
    · intro _; exact Or.inr h
    · intro _; norm_num
  · rw [if_neg h]
    constructor
    · intro hr; exact Or.inl hr
    · intro hr
      rcases hr with hr | hr
      · exact hr
      · exact absurd hr h

/-- C1: off-market deactivation proceeds iff the coverage ratio is at least
one half or there were no active listings before; when the gate is open the
returned count is exactly the number of previously active ids that were not
re-scraped, and when it is closed nothing changes and the count is 0. -/
theorem coverage_gate_correct (now : Nat) (source : String)
    (scraped_ids : Finset String) (runId : Option Int) (st : Store)
    (active_before : Finset String)
    (hab : active_before = get_active_external_ids source st)
    (huniq : (st.map lkey).Nodup) :
    ((coverage_ratio active_before scraped_ids ≥ 1/2) ↔
      ((scraped_ids.card : ℚ) / (active_before.card : ℚ) ≥ 1/2
        ∨ active_before = ∅))
    ∧ (coverage_ratio active_before scraped_ids ≥ 1/2 →
        (run_offmarket_phase now source active_before scraped_ids runId st).1
          = (active_before \ scraped_ids).card)
    ∧ (¬ (coverage_ratio active_before scraped_ids ≥ 1/2) →
        run_offmarket_phase now source active_before scraped_ids runId st
          = (0, st)) := by
  refine ⟨coverage_ratio_iff active_before scraped_ids, ?_, ?_⟩
  · intro hr
    have hsub : active_before \ scraped_ids ⊆ get_active_external_ids source st :=
      hab ▸ Finset.sdiff_subset
    unfold run_offmarket_phase
    rw [if_pos hr]
    by_cases hD : active_before \ scraped_ids = ∅
    · simp [mark_offmarket_listings, hD]
    · simp only [mark_offmarket_listings, if_neg hD]
      exact offmarket_filter_length source _ st huniq hsub
  · intro hr
    unfold run_offmarket_phase
    rw [if_neg hr]

/-- A fully populated active demonstration row for the off-market scenario. -/
def demoRow (e : String) : Listing :=
  { external_id := e, source := "craigslist", url := "u", title := "t"
    price := 1000, bedrooms := 1, bathrooms := 1, neighborhood := ""
    neighborhood_nta := "", latitude := none, longitude := none, address := ""
    sqft := none, laundry_type := none, amenities := [], images := []
    description := none, first_seen := 0, last_seen := 0, is_active := true
    deactivated_at := none, last_scrape_run_id := none, created_at := 0 }

/-- The four-listing store of the spec's coverage-gate example. -/
def demoStore : Store := [demoRow "A", demoRow "B", demoRow "C", demoRow "D"]

theorem coverage_gate_correct_witness :
    ({"A", "B", "C", "D"} : Finset String)
        = get_active_external_ids "craigslist" demoStore
    ∧ (demoStore.map lkey).Nodup
    ∧ coverage_ratio {"A", "B", "C", "D"} {"A", "B"} ≥ 1/2
    ∧ (({"A", "B", "C", "D"} : Finset String) \ {"A", "B"}).card = 2
    ∧ (run_offmarket_phase 7 "craigslist" {"A", "B", "C", "D"} {"A", "B"}
        none demoStore).1
        = (({"A", "B", "C", "D"} : Finset String) \ {"A", "B"}).card := by
  have h1 : ({"A", "B", "C", "D"} : Finset String)
      = get_active_external_ids "craigslist" demoStore := by decide
  have h2 : (demoStore.map lkey).Nodup := by decide
  have h3 : coverage_ratio ({"A", "B", "C", "D"} : Finset String) {"A", "B"} ≥ 1/2 := by
    have hc1 : ({"A", "B", "C", "D"} : Finset String).card = 4 := by decide
    have hc2 : ({"A", "B"} : Finset String).card = 2 := by decide
    have hne : ¬ (({"A", "B", "C", "D"} : Finset String) = ∅) := by decide
    unfold coverage_ratio
    rw [if_neg hne, hc1, hc2]
    norm_num
  exact ⟨h1, h2, h3, by decide,
    (coverage_gate_correct 7 "craigslist" {"A", "B"} none demoStore
      {"A", "B", "C", "D"} h1 h2).2.1 h3⟩

/-! ## Lemmas: the active/deactivated invariant -/

/-- The spec invariant: `is_active == false ⇔ deactivated_at != null` for
every persisted listing. -/
def ActiveInv (st : Store) : Prop :=
  ∀ l ∈ st, (l.is_active = false ↔ l.deactivated_at ≠ none)

lemma mem_updateFirst {α : Type} {p : α → Bool} {f : α → α} {l : List α} {x : α}
    (hx : x ∈ updateFirst p f l) : x ∈ l ∨ ∃ y ∈ l, x = f y := by
  induction l with
  | nil => simp [updateFirst] at hx
  | cons a as ih =>
    by_cases hp : p a = true
    · rw [updateFirst, if_pos hp] at hx
      rcases List.mem_cons.mp hx with rfl | hx
      · exact Or.inr ⟨a, List.mem_cons_self a as, rfl⟩
      · exact Or.inl (List.mem_cons_of_mem a hx)
    · rw [updateFirst, if_neg hp] at hx
      rcases List.mem_cons.mp hx with rfl | hx
      · exact Or.inl (List.mem_cons_self x as)
      · rcases ih hx with h | ⟨y, hy, rfl⟩
        · exact Or.inl (List.mem_cons_of_mem a h)
        · exact Or.inr ⟨y, List.mem_cons_of_mem a hy, rfl⟩

lemma activeInv_saveItem {now : Nat} {runId : Option Int} {st : Store}
    {item : ScrapedListing} (h : ActiveInv st) :
    ActiveInv (saveItem now runId st item) := by
  intro l hl
  unfold saveItem at hl
  cases hfind : st.find? (keyMatch item.source item.external_id) with
  | some r =>
    rw [hfind] at hl
    rcases mem_updateFirst hl with hmem | ⟨y, _, rfl⟩
    · exact h l hmem
    · simp [applyUpdate]
  | none =>
    rw [hfind] at hl
    rcases List.mem_append.mp hl with hmem | hmem
    · exact h l hmem
    · have := List.mem_singleton.mp hmem
      subst this
      simp [mkNewListing]

lemma save_store_proj (now : Nat) (runId : Option Int) :
    ∀ (scraped : List ScrapedListing) (acc : SaveAcc),
      (scraped.foldl (saveStep now runId) acc).2.2.2
        = scraped.foldl (saveItem now runId) acc.2.2.2 := by
  intro scraped
  induction scraped with
  | nil => intro acc; rfl
  | cons i rest ih =>
    intro acc
    have hs : (saveStep now runId acc i).2.2.2 = saveItem now runId acc.2.2.2 i := by
      unfold saveStep saveItem
      cases h : acc.2.2.2.find? (keyMatch i.source i.external_id) <;> simp [h]
    rw [List.foldl_cons, List.foldl_cons, ih, hs]

lemma activeInv_saveFold (now : Nat) (runId : Option Int) :
    ∀ (scraped : List ScrapedListing) (st : Store), ActiveInv st →
      ActiveInv (scraped.foldl (saveItem now runId) st) := by
  intro scraped
  induction scraped with
  | nil => intro st h; exact h
  | cons i rest ih =>
    intro st h
    rw [List.foldl_cons]
    exact ih _ (activeInv_saveItem h)

/-- C2: the invariant `is_active = false ⇔ deactivated_at ≠ null` holds for
the empty store and is preserved by reconciliation, off-market marking, and
reactivation, so it holds after every call. -/
theorem active_iff_deactivated_invariant :
    ActiveInv ([] : Store)
    ∧ (∀ (now : Nat) (runId : Option Int) (scraped : List ScrapedListing)
        (st : Store), ActiveInv st →
        ActiveInv (save_listings_to_db now runId scraped st).2.2.2)
    ∧ (∀ (now : Nat) (source : String) (ab si : Finset String)
        (runId : Option Int) (st : Store), ActiveInv st →
        ActiveInv (mark_offmarket_listings now source ab si runId st).2)
    ∧ (∀ (now : Nat) (source eid : String) (runId : Option Int) (st : Store),
        ActiveInv st →
        ActiveInv (reactivate_listing now source eid runId st).2) := by
  refine ⟨fun l hl => absurd hl (List.not_mem_nil l), ?_, ?_, ?_⟩
  · intro now runId scraped st h
    rw [save_listings_to_db, save_store_proj]
    exact activeInv_saveFold now runId scraped st h
  · intro now source ab si runId st h
    unfold mark_offmarket_listings
    by_cases hD : ab \ si = ∅
    · rw [if_pos hD]; exact h
    · rw [if_neg hD]
      intro l hl
      rcases List.mem_map.mp hl with ⟨l₀, hl₀, rfl⟩
      by_cases hp : offmarketPred source (ab \ si) l₀ = true
      · rw [if_pos hp]; simp [offmarketSet]
      · rw [if_neg hp]; exact h l₀ hl₀
  · intro now source eid runId st h
    cases hfind : st.find? (keyMatch source eid) with
    | none =>
      unfold reactivate_listing
      rw [hfind]
      exact h
    | some r =>
      unfold reactivate_listing
      rw [hfind]
      dsimp only
      by_cases hact : r.is_active = true
      · rw [if_pos hact]; exact h
      · rw [if_neg hact]
        intro l hl
        rcases mem_updateFirst hl with hmem | ⟨y, _, rfl⟩
        · exact h l hmem
        · simp

theorem active_iff_deactivated_invariant_witness :
    ActiveInv (save_listings_to_db 3 none [demoItem] []).2.2.2 :=
  active_iff_deactivated_invariant.2.1 3 none [demoItem] []
    (fun l hl => absurd hl (List.not_mem_nil l))

/-! ## Lemmas: the scroll/pagination loop -/

lemma collectNew_shift :
    ∀ (page : List ScrapedListing) (accL : List ScrapedListing) (accS : List String),
      page.foldl
        (fun acc l =>
          if acc.2.contains l.external_id then acc
          else (acc.1 ++ [l], acc.2 ++ [l.external_id])) (accL, accS)
      = (accL ++ (page.foldl
          (fun acc l =>
            if acc.2.contains l.external_id then acc
            else (acc.1 ++ [l], acc.2 ++ [l.external_id])) ([], accS)).1,
         (page.foldl
          (fun acc l =>
            if acc.2.contains l.external_id then acc
            else (acc.1 ++ [l], acc.2 ++ [l.external_id])) ([], accS)).2) := by
  intro page
  induction page with
  | nil => intro accL accS; simp
  | cons l rest ih =>
    intro accL accS
    simp only [List.foldl_cons]
    by_cases hc : accS.contains l.external_id = true
    · rw [if_pos hc, if_pos hc]
      exact ih accL accS
    · rw [if_neg hc, if_neg hc]
      simp only [List.nil_append]
      rw [ih (accL ++ [l]) (accS ++ [l.external_id]),
        ih [l] (accS ++ [l.external_id])]
      simp

lemma collectNew_facts :
    ∀ (page : List ScrapedListing) (seen : List String),
      (collectNew seen page).2
        = seen ++ ((collectNew seen page).1.map (fun l => l.external_id))
      ∧ ((collectNew seen page).1.map (fun l => l.external_id)).Nodup
      ∧ (∀ e ∈ (collectNew seen page).1.map (fun l => l.external_id), e ∉ seen)
      ∧ (∀ l ∈ page, l.external_id ∈ (collectNew seen page).2) := by
  intro page
  induction page with
  | nil =>
    intro seen
    refine ⟨by simp [collectNew], by simp [collectNew], by simp [collectNew],
      by simp⟩
  | cons l rest ih =>
    intro seen
    by_cases hc : seen.contains l.external_id = true
    · have hstep : collectNew seen (l :: rest) = collectNew seen rest := by
        unfold collectNew
        simp only [List.foldl_cons]
        rw [if_pos hc]
      have hmem : l.external_id ∈ seen := by
        simpa using hc
      rcases ih seen with ⟨h1, h2, h3, h4⟩
      refine ⟨by rw [hstep]; exact h1, by rw [hstep]; exact h2,
        by rw [hstep]; exact h3, ?_⟩
      intro x hx
      rcases List.mem_cons.mp hx with rfl | hx
      · rw [hstep, h1]
        exact List.mem_append.mpr (Or.inl hmem)
      · rw [hstep]
        exact h4 x hx
    · have hnotmem : l.external_id ∉ seen := by
        intro hmem
        exact hc (by simpa using hmem)
      have hstep : collectNew seen (l :: rest)
          = (l :: (collectNew (seen ++ [l.external_id]) rest).1,
             (collectNew (seen ++ [l.external_id]) rest).2) := by
        unfold collectNew
        simp only [List.foldl_cons]
        rw [if_neg hc]
        simp only [List.nil_append]
        rw [collectNew_shift rest [l] (seen ++ [l.external_id])]
        simp only [List.singleton_append]
      rcases ih (seen ++ [l.external_id]) with ⟨h1, h2, h3, h4⟩
      refine ⟨?_, ?_, ?_, ?_⟩
      · rw [hstep]
        simp only [List.map_cons]
        rw [h1]
        simp
      · rw [hstep]
        simp only [List.map_cons, List.nodup_cons]
        refine ⟨?_, h2⟩
        intro hmem
        exact h3 l.external_id hmem (by simp)
      · rw [hstep]
        simp only [List.map_cons]
        intro e he
        rcases List.mem_cons.mp he with rfl | he
        · exact hnotmem
        · intro hmem
          exact h3 e he (List.mem_append.mpr (Or.inl hmem))
      · intro x hx
        rcases List.mem_cons.mp hx with rfl | hx
        · rw [hstep]
          dsimp only
          rw [h1]
          exact List.mem_append.mpr (Or.inl (by simp))
        · rw [hstep]
          dsimp only
          exact h4 x hx

lemma collectNew_all_seen (seen : List String) (page : List ScrapedListing)
    (h : ∀ l ∈ page, l.external_id ∈ seen) :
    collectNew seen page = ([], seen) := by
  induction page with
  | nil => rfl
  | cons l rest ih =>
    have hc : seen.contains l.external_id = true := by
      simpa using h l (List.mem_cons_self l rest)
    have hstep : collectNew seen (l :: rest) = collectNew seen rest := by
      unfold collectNew
      simp only [List.foldl_cons]
      rw [if_pos hc]
    rw [hstep]
    exact ih (fun x hx => h x (List.mem_cons_of_mem l hx))

lemma scrollIter_scroll_count (pages : Nat → List ScrapedListing)
    (st : ScrollState) :
    (scrollIter pages st).scroll_count = st.scroll_count + 1 := by
  simp only [scrollIter]
  split <;> rfl

lemma scrollIter_seen_superset (pages : Nat → List ScrapedListing)
    (st : ScrollState) :
    (∀ e ∈ st.seen, e ∈ (scrollIter pages st).seen)
    ∧ (∀ l ∈ pages st.scroll_count,
        l.external_id ∈ (scrollIter pages st).seen) := by
  rcases collectNew_facts (pages st.scroll_count) st.seen with ⟨h1, _, _, h4⟩
  have hseen : (scrollIter pages st).seen
      = (collectNew st.seen (pages st.scroll_count)).2 := by
    simp only [scrollIter]
    split <;> rfl
  constructor
  · intro e he
    rw [hseen, h1]
    exact List.mem_append.mpr (Or.inl he)
  · intro l hl
    rw [hseen]
    exact h4 l hl

/-- The dedup invariant carried through the scroll loop. -/
def ScrollInv (st : ScrollState) : Prop :=
  ((st.all.map (fun l => l.external_id)).Nodup)
  ∧ (∀ e ∈ st.all.map (fun l => l.external_id), e ∈ st.seen)

lemma scrollIter_inv (pages : Nat → List ScrapedListing) (st : ScrollState)
    (h : ScrollInv st) : ScrollInv (scrollIter pages st) := by
  rcases collectNew_facts (pages st.scroll_count) st.seen with ⟨h1, h2, h3, _⟩
  rcases h with ⟨hnd, hsub⟩
  simp only [scrollIter]
  by_cases hne : (collectNew st.seen (pages st.scroll_count)).1 ≠ []
  · rw [if_pos hne]
    constructor
    · simp only [List.map_append]
      rw [List.nodup_append]
      refine ⟨hnd, h2, ?_⟩
      intro e he he'
      exact h3 e he' (hsub e he)
    · intro e he
      rw [h1]
      simp only [List.map_append] at he
      rcases List.mem_append.mp he with he | he
      · exact List.mem_append.mpr (Or.inl (hsub e he))
      · exact List.mem_append.mpr (Or.inr he)
  · rw [if_neg hne]
    refine ⟨hnd, ?_⟩
    intro e he
    rw [h1]
    exact List.mem_append.mpr (Or.inl (hsub e he))

lemma scrollGo_inv (pages : Nat → List ScrapedListing) (mL mE mS : Nat) :
    ∀ (fuel : Nat) (st : ScrollState), ScrollInv st →
      ScrollInv (scrollGo pages mL mE mS fuel st) := by
  intro fuel
  induction fuel with
  | zero => intro st h; exact h
  | succ n ih =>
    intro st h
    rw [scrollGo]
    split
    · exact ih _ (scrollIter_inv pages st h)
    · exact h

lemma scrollGo_exit (pages : Nat → List ScrapedListing) (mL mE mS : Nat) :
    ∀ (fuel : Nat) (st : ScrollState), mS - st.scroll_count ≤ fuel →
      ¬((scrollGo pages mL mE mS fuel st).all.length < mL
        ∧ (scrollGo pages mL mE mS fuel st).empty_pages < mE
        ∧ (scrollGo pages mL mE mS fuel st).scroll_count < mS) := by
  intro fuel
  induction fuel with
  | zero =>
    intro st h
    intro hcon
    rcases hcon with ⟨_, _, h3⟩
    simp only [scrollGo] at h3
    omega
  | succ n ih =>
    intro st h
    rw [scrollGo]
    split
    · next hcond =>
      apply ih
      rw [scrollIter_scroll_count]
      omega
    · next hcond => exact hcond

/-- Ids of every already-scrolled view are recorded in `seen`. -/
def SeenPages (pages : Nat → List ScrapedListing) (st : ScrollState) : Prop :=
  ∀ m, m < st.scroll_count → ∀ l ∈ pages m, l.external_id ∈ st.seen

lemma scrollIter_seenPages (pages : Nat → List ScrapedListing) (st : ScrollState)
    (h : SeenPages pages st) : SeenPages pages (scrollIter pages st) := by
  intro m hm l hl
  rw [scrollIter_scroll_count] at hm
  rcases Nat.lt_succ_iff_lt_or_eq.mp hm with hm | rfl
  · exact (scrollIter_seen_superset pages st).1 _ (h m hm l hl)
  · exact (scrollIter_seen_superset pages st).2 l hl

lemma scrollGo_empty_bound (pages : Nat → List ScrapedListing)
    (mL mE mS k : Nat)
    (hk : ∀ m, k ≤ m → ∀ l ∈ pages m,
      ∃ m', m' < k ∧ ∃ l' ∈ pages m', l'.external_id = l.external_id) :
    ∀ (fuel : Nat) (st : ScrollState), SeenPages pages st →
      (st.scroll_count ≤ k
        ∨ st.scroll_count + (mE - st.empty_pages) ≤ k + mE) →
      (scrollGo pages mL mE mS fuel st).scroll_count ≤ k + mE := by
  intro fuel
  induction fuel with
  | zero =>
    intro st _ hd
    simp only [scrollGo]
    omega
  | succ n ih =>
    intro st hseen hd
    rw [scrollGo]
    split
    · next hcond =>
      have hiter := scrollIter_scroll_count pages st
      by_cases hlt : st.scroll_count < k
      · exact ih _ (scrollIter_seenPages pages st hseen) (Or.inl (by omega))
      · have hke : k ≤ st.scroll_count := by omega
        have hall : ∀ l ∈ pages st.scroll_count, l.external_id ∈ st.seen := by
          intro l hl
          rcases hk st.scroll_count hke l hl with ⟨m', hm', l', hl', heq⟩
          rw [← heq]
          exact hseen m' (by omega) l' hl'
        have hempty : collectNew st.seen (pages st.scroll_count)
            = ([], st.seen) := collectNew_all_seen _ _ hall
        have hstep : scrollIter pages st
            = { all := st.all, seen := st.seen,
                empty_pages := st.empty_pages + 1,
                scroll_count := st.scroll_count + 1 } := by
          simp only [scrollIter]
          rw [hempty]
          simp
        refine ih _ (scrollIter_seenPages pages st hseen) ?_
        rw [hstep]
        right
        dsimp only
        omega
    · omega

/-- A page stream producing one listing on the initial view and nothing on
any later view. -/
def demoPages : Nat → List ScrapedListing :=
  fun n => if n = 0 then [demoItem] else []

/-- C7 counterexample: the scroll driver returns only the listing list; a run
stopped by the candidate bound and a run stopped by consecutive-empty
exhaustion produce identical return values, so no flag distinguishes natural
exhaustion from bound-limited termination. -/
theorem scrape_batch_no_flag :
    scrape_batch demoPages 1 = scrape_batch demoPages 100
    ∧ ¬((scrollLoop demoPages 1 8 200 ⟨[], [], 0, 0⟩).all.length < 1)
    ∧ (scrollLoop demoPages 1 8 200 ⟨[], [], 0, 0⟩).empty_pages < 8
    ∧ (scrollLoop demoPages 1 8 200 ⟨[], [], 0, 0⟩).scroll_count < 200
    ∧ (scrollLoop demoPages 100 8 200 ⟨[], [], 0, 0⟩).all.length < 100
    ∧ ¬((scrollLoop demoPages 100 8 200 ⟨[], [], 0, 0⟩).empty_pages < 8)
    ∧ (scrollLoop demoPages 100 8 200 ⟨[], [], 0, 0⟩).scroll_count < 200 := by
  decide

/-- C7 (amended): the scroll loop stops exactly when one of the three bounds
(candidate count, consecutive-empty threshold, scroll safety bound) is hit;
the consecutive-empty counter resets to zero on a view with new candidates
and increments otherwise; the returned candidate list is deduplicated by
external id; and a source yielding no unseen candidates from load `k` on
terminates within `max_empty` further loads; but the return value is only the
listing list, with no exhaustion flag. -/
theorem scrape_batch_termination (pages : Nat → List ScrapedListing)
    (mL mE mS k : Nat) :
    (¬((scrollLoop pages mL mE mS ⟨[], [], 0, 0⟩).all.length < mL
        ∧ (scrollLoop pages mL mE mS ⟨[], [], 0, 0⟩).empty_pages < mE
        ∧ (scrollLoop pages mL mE mS ⟨[], [], 0, 0⟩).scroll_count < mS))
    ∧ (∀ st : ScrollState, (collectNew st.seen (pages st.scroll_count)).1 ≠ [] →
        (scrollIter pages st).empty_pages = 0)
    ∧ (∀ st : ScrollState, (collectNew st.seen (pages st.scroll_count)).1 = [] →
        (scrollIter pages st).empty_pages = st.empty_pages + 1)
    ∧ ((scrape_batch pages mL).map (fun l => l.external_id)).Nodup
    ∧ ((∀ m, k ≤ m → ∀ l ∈ pages m,
          ∃ m', m' < k ∧ ∃ l' ∈ pages m', l'.external_id = l.external_id) →
        (scrollLoop pages mL mE mS ⟨[], [], 0, 0⟩).scroll_count ≤ k + mE) := by
  refine ⟨?_, ?_, ?_, ?_, ?_⟩
  · exact scrollGo_exit pages mL mE mS _ _ (by simp)
  · intro st hne
    simp only [scrollIter]
    rw [if_pos hne]
  · intro st he
    simp only [scrollIter]
    rw [if_neg (by simp [he])]
  · have h := scrollGo_inv pages mL 8 200 (200 - 0) ⟨[], [], 0, 0⟩
      ⟨by simp, by simp⟩
    exact h.1
  · intro hk
    exact scrollGo_empty_bound pages mL mE mS k hk _ _
      (fun m hm => absurd hm (by simp)) (Or.inl (by simp))

theorem scrape_batch_termination_witness :
    (∀ m, 1 ≤ m → ∀ l ∈ demoPages m,
      ∃ m', m' < 1 ∧ ∃ l' ∈ demoPages m', l'.external_id = l.external_id)
    ∧ (scrollLoop demoPages 100 8 200 ⟨[], [], 0, 0⟩).scroll_count ≤ 1 + 8 := by
  have hk : ∀ m, 1 ≤ m → ∀ l ∈ demoPages m,
      ∃ m', m' < 1 ∧ ∃ l' ∈ demoPages m', l'.external_id = l.external_id := by
    intro m hm l hl
    have hempty : demoPages m = [] := by
      unfold demoPages
      rw [if_neg (by omega)]
    rw [hempty] at hl
    exact absurd hl (List.not_mem_nil l)
  exact ⟨hk, (scrape_batch_termination demoPages 100 8 200 1).2.2.2.2 hk⟩

/-! ## Lemmas: reconciliation structure -/

lemma length_updateFirst {α : Type} (p : α → Bool) (f : α → α) :
    ∀ l : List α, (updateFirst p f l).length = l.length := by
  intro l
  induction l with
  | nil => rfl
  | cons a as ih =>
    by_cases hp : p a = true
    · rw [updateFirst, if_pos hp]
      rfl
    · rw [updateFirst, if_neg hp]
      simp [ih]

lemma map_updateFirst {α β : Type} (p : α → Bool) (f : α → α) (g : α → β)
    (hg : ∀ x, g (f x) = g x) :
    ∀ l : List α, (updateFirst p f l).map g = l.map g := by
  intro l
  induction l with
  | nil => rfl
  | cons a as ih =>
    by_cases hp : p a = true
    · rw [updateFirst, if_pos hp]
      simp [hg a]
    · rw [updateFirst, if_neg hp]
      simp [ih]

lemma updateFirst_eq_self {α : Type} {p : α → Bool} {f : α → α} :
    ∀ {l : List α} {r : α}, l.find? p = some r → f r = r →
      updateFirst p f l = l := by
  intro l
  induction l with
  | nil => intro r h; simp at h
  | cons a as ih =>
    intro r h hf
    by_cases hp : p a = true
    · rw [List.find?_cons_of_pos _ hp] at h
      have : a = r := by simpa using h
      subst this
      rw [updateFirst, if_pos hp, hf]
    · rw [List.find?_cons_of_neg _ (by simp [hp])] at h
      rw [updateFirst, if_neg hp, ih h hf]

lemma find?_updateFirst_self {α : Type} {p : α → Bool} {f : α → α}
    (hpf : ∀ x, p (f x) = p x) :
    ∀ l : List α, (updateFirst p f l).find? p = (l.find? p).map f := by
  intro l
  induction l with
  | nil => rfl
  | cons a as ih =>
    by_cases hp : p a = true
    · rw [updateFirst, if_pos hp, List.find?_cons_of_pos _ hp,
        List.find?_cons_of_pos _ (by rw [hpf a]; exact hp)]
      rfl
    · rw [updateFirst, if_neg hp, List.find?_cons_of_neg _ (by simp [hp]),
        List.find?_cons_of_neg _ (by simp [hp]), ih]

lemma find?_updateFirst_disjoint {α : Type} {p q : α → Bool} {f : α → α}
    (hdisj : ∀ x, p x = true → q x = false)
    (hqf : ∀ x, q (f x) = q x) :
    ∀ l : List α, (updateFirst p f l).find? q = l.find? q := by
  intro l
  induction l with
  | nil => rfl
  | cons a as ih =>
    by_cases hp : p a = true
    · have hqa : q a = false := hdisj a hp
      rw [updateFirst, if_pos hp,
        List.find?_cons_of_neg _ (by rw [hqf a]; simp [hqa]),
        List.find?_cons_of_neg _ (by simp [hqa])]
    · rw [updateFirst, if_neg hp]
      by_cases hq : q a = true
      · rw [List.find?_cons_of_pos _ hq, List.find?_cons_of_pos _ hq]
      · rw [List.find?_cons_of_neg _ (by simp [hq]),
          List.find?_cons_of_neg _ (by simp [hq]), ih]

lemma lkey_applyUpdate (now : Nat) (runId : Option Int) (item : ScrapedListing)
    (l : Listing) : lkey (applyUpdate now runId item l) = lkey l := rfl

lemma lkey_mkNewListing (now : Nat) (runId : Option Int)
    (item : ScrapedListing) : lkey (mkNewListing now runId item) = skey item := rfl

lemma saveStep_ids (now : Nat) (runId : Option Int) (acc : SaveAcc)
    (i : ScrapedListing) :
    (saveStep now runId acc i).2.2.1 = insert i.external_id acc.2.2.1 := by
  unfold saveStep
  cases acc.2.2.2.find? (keyMatch i.source i.external_id) <;> rfl

lemma insert_union_swap (e : String) (A B : Finset String) :
    (insert e A) ∪ B = A ∪ insert e B := by
  ext a
  simp only [Finset.mem_union, Finset.mem_insert]
  tauto

lemma save_ids_aux (now : Nat) (runId : Option Int) :
    ∀ (scraped : List ScrapedListing) (acc : SaveAcc),
      (scraped.foldl (saveStep now runId) acc).2.2.1
        = acc.2.2.1 ∪ (scraped.map (fun i => i.external_id)).toFinset := by
  intro scraped
  induction scraped with
  | nil => intro acc; simp
  | cons i rest ih =>
    intro acc
    rw [List.foldl_cons, ih, saveStep_ids]
    rw [List.map_cons, List.toFinset_cons]
    exact insert_union_swap i.external_id acc.2.2.1 _

lemma save_length_aux (now : Nat) (runId : Option Int) :
    ∀ (scraped : List ScrapedListing) (acc : SaveAcc),
      (scraped.foldl (saveStep now runId) acc).2.2.2.length + acc.1
        = acc.2.2.2.length + (scraped.foldl (saveStep now runId) acc).1 := by
  intro scraped
  induction scraped with
  | nil =>
    intro acc
    simp only [List.foldl_nil]
  | cons i rest ih =>
    intro acc
    rw [List.foldl_cons]
    cases h : acc.2.2.2.find? (keyMatch i.source i.external_id) with
    | some r =>
      have hstep : saveStep now runId acc i
          = (acc.1, acc.2.1 + 1, insert i.external_id acc.2.2.1,
             updateFirst (keyMatch i.source i.external_id)
               (applyUpdate now runId i) acc.2.2.2) := by
        unfold saveStep; rw [h]
      rw [hstep]
      have hlen := ih (acc.1, acc.2.1 + 1, insert i.external_id acc.2.2.1,
        updateFirst (keyMatch i.source i.external_id)
          (applyUpdate now runId i) acc.2.2.2)
      dsimp only at hlen ⊢
      rw [length_updateFirst] at hlen
      omega
    | none =>
      have hstep : saveStep now runId acc i
          = (acc.1 + 1, acc.2.1, insert i.external_id acc.2.2.1,
             acc.2.2.2 ++ [mkNewListing now runId i]) := by
        unfold saveStep; rw [h]
      rw [hstep]
      have hlen := ih (acc.1 + 1, acc.2.1, insert i.external_id acc.2.2.1,
        acc.2.2.2 ++ [mkNewListing now runId i])
      dsimp only at hlen ⊢
      rw [List.length_append] at hlen
      simp only [List.length_singleton] at hlen
      omega

lemma save_keys_aux (now : Nat) (runId : Option Int) :
    ∀ (scraped : List ScrapedListing) (st : Store),
      ∃ ext, (scraped.foldl (saveItem now runId) st).map lkey
        = st.map lkey ++ ext := by
  intro scraped
  induction scraped with
  | nil => intro st; exact ⟨[], by simp⟩
  | cons i rest ih =>
    intro st
    rw [List.foldl_cons]
    rcases ih (saveItem now runId st i) with ⟨ext, hext⟩
    cases h : st.find? (keyMatch i.source i.external_id) with
    | some r =>
      have hsi : saveItem now runId st i
          = updateFirst (keyMatch i.source i.external_id)
              (applyUpdate now runId i) st := by
        unfold saveItem; rw [h]
      refine ⟨ext, ?_⟩
      rw [hext, hsi,
        map_updateFirst _ _ lkey (fun x => lkey_applyUpdate now runId i x) st]
    | none =>
      have hsi : saveItem now runId st i
          = st ++ [mkNewListing now runId i] := by
        unfold saveItem; rw [h]
      refine ⟨skey i :: ext, ?_⟩
      rw [hext, hsi]
      simp [lkey_mkNewListing]

/-- C3: per reconciled listing, an absent key inserts a fresh row with
`first_seen = last_seen = now`, active and with no deactivation timestamp; a
present key updates the first matching row — price unconditionally, images
only when non-empty, each coordinate only when (truthily) present,
neighborhood only when resolved, laundry type only when resolved — refreshing
`last_seen`, activity, deactivation and run stamp and leaving the key
untouched; the whole call deletes no row (the store grows by exactly the new
count and keeps the old rows' keys as a prefix) and returns the observed
external-id set. -/
theorem save_reconcile_spec (now : Nat) (runId : Option Int)
    (item : ScrapedListing) (st : Store) (scraped : List ScrapedListing) :
    (st.find? (keyMatch item.source item.external_id) = none →
      saveItem now runId st item = st ++ [mkNewListing now runId item]
      ∧ (mkNewListing now runId item).first_seen = now
      ∧ (mkNewListing now runId item).last_seen = now
      ∧ (mkNewListing now runId item).is_active = true
      ∧ (mkNewListing now runId item).deactivated_at = none)
    ∧ (∀ r, st.find? (keyMatch item.source item.external_id) = some r →
        saveItem now runId st item
          = updateFirst (keyMatch item.source item.external_id)
              (applyUpdate now runId item) st
        ∧ (applyUpdate now runId item r).price = item.price
        ∧ (applyUpdate now runId item r).images
            = (if item.images ≠ [] then item.images else r.images)
        ∧ (applyUpdate now runId item r).latitude
            = (if optQTruthy item.latitude then item.latitude else r.latitude)
        ∧ (applyUpdate now runId item r).longitude
            = (if optQTruthy item.longitude then item.longitude else r.longitude)
        ∧ (applyUpdate now runId item r).neighborhood
            = (if item.neighborhood ≠ "" then item.neighborhood
               else r.neighborhood)
        ∧ (applyUpdate now runId item r).laundry_type
            = (if optStrTruthy item.laundry_type then item.laundry_type
               else r.laundry_type)
        ∧ (applyUpdate now runId item r).last_seen = now
        ∧ (applyUpdate now runId item r).is_active = true
        ∧ (applyUpdate now runId item r).deactivated_at = none
        ∧ (applyUpdate now runId item r).last_scrape_run_id = runId
        ∧ lkey (applyUpdate now runId item r) = lkey r)
    ∧ (save_listings_to_db now runId scraped st).2.2.2.length
        = st.length + (save_listings_to_db now runId scraped st).1
    ∧ (save_listings_to_db now runId scraped st).2.2.1
        = (scraped.map (fun i => i.external_id)).toFinset
    ∧ (∃ ext, (save_listings_to_db now runId scraped st).2.2.2.map lkey
        = st.map lkey ++ ext) := by
  refine ⟨?_, ?_, ?_, ?_, ?_⟩
  · intro h
    have hsi : saveItem now runId st item
        = st ++ [mkNewListing now runId item] := by
      unfold saveItem; rw [h]
    exact ⟨hsi, rfl, rfl, rfl, rfl⟩
  · intro r h
    have hsi : saveItem now runId st item
        = updateFirst (keyMatch item.source item.external_id)
            (applyUpdate now runId item) st := by
      unfold saveItem; rw [h]
    exact ⟨hsi, rfl, rfl, rfl, rfl, rfl, rfl, rfl, rfl, rfl, rfl, rfl⟩
  · have h := save_length_aux now runId scraped (0, 0, ∅, st)
    dsimp only at h
    unfold save_listings_to_db
    omega
  · have h := save_ids_aux now runId scraped (0, 0, ∅, st)
    dsimp only at h
    unfold save_listings_to_db
    rw [h]
    exact Finset.empty_union _
  · unfold save_listings_to_db
    rw [save_store_proj]
    exact save_keys_aux now runId scraped st

theorem save_reconcile_spec_witness :
    ([] : Store).find? (keyMatch demoItem.source demoItem.external_id) = none
    ∧ saveItem 5 none [] demoItem = [mkNewListing 5 none demoItem]
    ∧ (mkNewListing 5 none demoItem).first_seen = 5
    ∧ (mkNewListing 5 none demoItem).is_active = true := by
  have h := (save_reconcile_spec 5 none demoItem [] []).1 rfl
  exact ⟨rfl, by simpa using h.1, h.2.1, h.2.2.2.1⟩

/-! ## Lemmas: reconciliation idempotence -/

/-- The first persisted row with the given `(source, external_id)` key. -/
def firstRow (k : String × String) (st : Store) : Option Listing :=
  st.find? (keyMatch k.1 k.2)

lemma firstRow_skey (i : ScrapedListing) (st : Store) :
    firstRow (skey i) st = st.find? (keyMatch i.source i.external_id) := rfl

lemma keyMatch_applyUpdate (now : Nat) (runId : Option Int)
    (item : ScrapedListing) (s e : String) (l : Listing) :
    keyMatch s e (applyUpdate now runId item l) = keyMatch s e l := rfl

lemma keyMatch_mkNew_self (now : Nat) (runId : Option Int) (i : ScrapedListing) :
    keyMatch i.source i.external_id (mkNewListing now runId i) = true := by
  simp [keyMatch, mkNewListing]

lemma keyMatch_eq_key {s e : String} {l : Listing}
    (h : keyMatch s e l = true) : l.source = s ∧ l.external_id = e := by
  have h' := (Bool.and_eq_true _ _).mp h
  exact ⟨eq_of_beq h'.1, eq_of_beq h'.2⟩

lemma keyMatch_disjoint {i : ScrapedListing} {k : String × String}
    (hk : skey i ≠ k) :
    ∀ l, keyMatch i.source i.external_id l = true → keyMatch k.1 k.2 l = false := by
  intro l h
  by_cases hq : keyMatch k.1 k.2 l = true
  · obtain ⟨h1, h2⟩ := keyMatch_eq_key h
    obtain ⟨h3, h4⟩ := keyMatch_eq_key hq
    exact absurd (show skey i = k from by
      unfold skey
      rw [← h1, ← h2, h3, h4]) hk
  · simpa using hq

lemma keyMatch_mkNew_other {now : Nat} {runId : Option Int}
    {i : ScrapedListing} {k : String × String} (hk : skey i ≠ k) :
    keyMatch k.1 k.2 (mkNewListing now runId i) = false :=
  keyMatch_disjoint hk (mkNewListing now runId i)
    (keyMatch_mkNew_self now runId i)

lemma firstRow_saveItem (now : Nat) (runId : Option Int) (i : ScrapedListing)
    (st : Store) (k : String × String) :
    firstRow k (saveItem now runId st i)
      = if skey i = k
        then some (match firstRow k st with
          | some r => applyUpdate now runId i r
          | none => mkNewListing now runId i)
        else firstRow k st := by
  by_cases hk : skey i = k
  · subst hk
    rw [if_pos rfl, firstRow_skey, firstRow_skey]
    unfold saveItem
    cases hfind : st.find? (keyMatch i.source i.external_id) with
    | some r =>
      dsimp only
      rw [find?_updateFirst_self
        (fun x => keyMatch_applyUpdate now runId i i.source i.external_id x) st,
        hfind]
      rfl
    | none =>
      dsimp only
      rw [List.find?_append, hfind]
      rw [List.find?_cons_of_pos _ (keyMatch_mkNew_self now runId i)]
      rfl
  · rw [if_neg hk]
    unfold saveItem
    cases hfind : st.find? (keyMatch i.source i.external_id) with
    | some r =>
      dsimp only
      unfold firstRow
      exact find?_updateFirst_disjoint (keyMatch_disjoint hk)
        (fun x => keyMatch_applyUpdate now runId i k.1 k.2 x) st
    | none =>
      dsimp only
      unfold firstRow
      rw [List.find?_append]
      rw [show ([mkNewListing now runId i].find? (keyMatch k.1 k.2)) = none
        from by rw [List.find?_cons_of_neg _ (by simp [keyMatch_mkNew_other hk])]; rfl]
      rw [Option.or_none]

lemma firstRow_saveFold_other (now : Nat) (runId : Option Int)
    (k : String × String) :
    ∀ (scraped : List ScrapedListing) (st : Store),
      (∀ j ∈ scraped, skey j ≠ k) →
      firstRow k (scraped.foldl (saveItem now runId) st) = firstRow k st := by
  intro scraped
  induction scraped with
  | nil => intro st _; rfl
  | cons j rest ih =>
    intro st h
    rw [List.foldl_cons, ih _ (fun j' hj' => h j' (List.mem_cons_of_mem j hj')),
      firstRow_saveItem, if_neg (h j (List.mem_cons_self j rest))]

lemma applyUpdate_idem (now : Nat) (runId : Option Int) (i : ScrapedListing)
    (r : Listing) :
    applyUpdate now runId i (applyUpdate now runId i r)
      = applyUpdate now runId i r := by
  unfold applyUpdate
  dsimp only
  split_ifs <;> rfl

lemma applyUpdate_mkNew (now : Nat) (runId : Option Int) (i : ScrapedListing) :
    applyUpdate now runId i (mkNewListing now runId i)
      = mkNewListing now runId i := by
  unfold applyUpdate mkNewListing
  dsimp only
  split_ifs <;> rfl

lemma save_run_fix (now : Nat) (runId : Option Int) :
    ∀ (scraped : List ScrapedListing) (st : Store),
      (scraped.map skey).Nodup →
      ∀ i ∈ scraped,
        ∃ r, firstRow (skey i) (scraped.foldl (saveItem now runId) st) = some r
          ∧ applyUpdate now runId i r = r := by
  intro scraped
  induction scraped with
  | nil => intro st _ i hi; exact absurd hi (List.not_mem_nil i)
  | cons j rest ih =>
    intro st hnodup i hi
    rw [List.map_cons, List.nodup_cons] at hnodup
    rcases List.mem_cons.mp hi with rfl | hi
    · have hother : ∀ j' ∈ rest, skey j' ≠ skey i := by
        intro j' hj' heq
        exact hnodup.1 (heq ▸ List.mem_map_of_mem skey hj')
      rw [List.foldl_cons, firstRow_saveFold_other now runId (skey i) rest _ hother,
        firstRow_saveItem, if_pos rfl]
      cases hfr : firstRow (skey i) st with
      | some r =>
        exact ⟨applyUpdate now runId i r, rfl, applyUpdate_idem now runId i r⟩
      | none =>
        exact ⟨mkNewListing now runId i, rfl, applyUpdate_mkNew now runId i⟩
    · rw [List.foldl_cons]
      exact ih (saveItem now runId st j) hnodup.2 i hi

lemma saveItem_noop {now : Nat} {runId : Option Int} {i : ScrapedListing}
    {t : Store} {r : Listing}
    (hfr : firstRow (skey i) t = some r)
    (hfix : applyUpdate now runId i r = r) :
    saveItem now runId t i = t := by
  rw [firstRow_skey] at hfr
  unfold saveItem
  rw [hfr]
  exact updateFirst_eq_self hfr hfix

lemma save_run_replay (now : Nat) (runId : Option Int) :
    ∀ (scraped : List ScrapedListing) (t : Store),
      (∀ i ∈ scraped, ∃ r, firstRow (skey i) t = some r
        ∧ applyUpdate now runId i r = r) →
      scraped.foldl (saveItem now runId) t = t := by
  intro scraped
  induction scraped with
  | nil => intro t _; rfl
  | cons i rest ih =>
    intro t h
    rcases h i (List.mem_cons_self i rest) with ⟨r, hfr, hfix⟩
    rw [List.foldl_cons, saveItem_noop hfr hfix]
    exact ih t (fun j hj => h j (List.mem_cons_of_mem i hj))

lemma save_replay_counts (now : Nat) (runId : Option Int) :
    ∀ (scraped : List ScrapedListing) (acc : SaveAcc),
      (∀ i ∈ scraped, ∃ r, firstRow (skey i) acc.2.2.2 = some r
        ∧ applyUpdate now runId i r = r) →
      scraped.foldl (saveStep now runId) acc
        = (acc.1, acc.2.1 + scraped.length,
           acc.2.2.1 ∪ (scraped.map (fun i => i.external_id)).toFinset,
           acc.2.2.2) := by
  intro scraped
  induction scraped with
  | nil => intro acc _; simp
  | cons i rest ih =>
    intro acc h
    rcases h i (List.mem_cons_self i rest) with ⟨r, hfr, hfix⟩
    rw [firstRow_skey] at hfr
    have hstep : saveStep now runId acc i
        = (acc.1, acc.2.1 + 1, insert i.external_id acc.2.2.1, acc.2.2.2) := by
      unfold saveStep
      rw [hfr]
      dsimp only
      rw [updateFirst_eq_self hfr hfix]
    rw [List.foldl_cons, hstep,
      ih (acc.1, acc.2.1 + 1, insert i.external_id acc.2.2.1, acc.2.2.2)
        (fun j hj => h j (List.mem_cons_of_mem i hj))]
    dsimp only
    rw [List.map_cons, List.toFinset_cons,
      insert_union_swap i.external_id acc.2.2.1 _]
    have hlen : acc.2.1 + 1 + rest.length = acc.2.1 + (rest.length + 1) := by
      omega
    rw [hlen]
    rfl

/-- The uniqueness invariant: each `(source, external_id)` key identifies at
most one persisted row. -/
def KeysUnique (st : Store) : Prop := (st.map lkey).Nodup

lemma keysUnique_saveItem {now : Nat} {runId : Option Int}
    {st : Store} {i : ScrapedListing} (h : KeysUnique st) :
    KeysUnique (saveItem now runId st i) := by
  unfold saveItem
  cases hfind : st.find? (keyMatch i.source i.external_id) with
  | some r =>
    unfold KeysUnique
    rw [map_updateFirst _ _ lkey (fun x => lkey_applyUpdate now runId i x) st]
    exact h
  | none =>
    unfold KeysUnique
    rw [List.map_append]
    simp only [List.map_cons, List.map_nil]
    rw [List.nodup_append]
    refine ⟨h, by simp, ?_⟩
    intro x hx hx'
    have hxk : x = skey i := by
      rcases List.mem_cons.mp hx' with h' | h'
      · rw [h']; exact lkey_mkNewListing now runId i
      · exact absurd h' (List.not_mem_nil x)
    rcases List.mem_map.mp hx with ⟨l, hl, rfl⟩
    have hfalse := List.find?_eq_none.mp hfind l hl
    apply hfalse
    have h1 : l.source = i.source := congrArg Prod.fst hxk
    have h2 : l.external_id = i.external_id := congrArg Prod.snd hxk
    unfold keyMatch
    rw [h1, h2]
    simp

lemma keysUnique_saveFold (now : Nat) (runId : Option Int) :
    ∀ (scraped : List ScrapedListing) (st : Store), KeysUnique st →
      KeysUnique (scraped.foldl (saveItem now runId) st) := by
  intro scraped
  induction scraped with
  | nil => intro st h; exact h
  | cons i rest ih =>
    intro st h
    rw [List.foldl_cons]
    exact ih _ (keysUnique_saveItem h)

/-- C4: reconciling the same batch again, against the store produced by the
first reconciliation (at the same reconciliation instant), classifies every
item as updated — new count 0, updated count the batch length — returns the
same observed-id set, leaves the stored rows unchanged, and key uniqueness
carries over to the reconciled store. -/
theorem save_reconcile_idempotent (now : Nat) (runId : Option Int)
    (scraped : List ScrapedListing) (st : Store)
    (huniq : KeysUnique st) (hbatch : (scraped.map skey).Nodup) :
    save_listings_to_db now runId scraped
        (save_listings_to_db now runId scraped st).2.2.2
      = (0, scraped.length,
         (save_listings_to_db now runId scraped st).2.2.1,
         (save_listings_to_db now runId scraped st).2.2.2)
    ∧ KeysUnique (save_listings_to_db now runId scraped st).2.2.2 := by
  have hstore : (save_listings_to_db now runId scraped st).2.2.2
      = scraped.foldl (saveItem now runId) st := by
    unfold save_listings_to_db
    exact save_store_proj now runId scraped (0, 0, ∅, st)
  have hfix : ∀ i ∈ scraped,
      ∃ r, firstRow (skey i)
          (save_listings_to_db now runId scraped st).2.2.2 = some r
        ∧ applyUpdate now runId i r = r := by
    rw [hstore]
    exact save_run_fix now runId scraped st hbatch
  constructor
  · have hrun2 := save_replay_counts now runId scraped
      (0, 0, ∅, (save_listings_to_db now runId scraped st).2.2.2)
      (fun i hi => hfix i hi)
    have hids := save_ids_aux now runId scraped (0, 0, ∅, st)
    dsimp only at hrun2 hids
    unfold save_listings_to_db
    unfold save_listings_to_db at hrun2
    rw [hrun2, hids]
    simp
  · rw [hstore]
    exact keysUnique_saveFold now runId scraped st huniq

theorem save_reconcile_idempotent_witness :
    KeysUnique ([] : Store)
    ∧ ([demoItem].map skey).Nodup
    ∧ save_listings_to_db 5 none [demoItem]
        (save_listings_to_db 5 none [demoItem] []).2.2.2
      = (0, 1,
         (save_listings_to_db 5 none [demoItem] []).2.2.1,
         (save_listings_to_db 5 none [demoItem] []).2.2.2) := by
  refine ⟨by simp [KeysUnique], by simp, ?_⟩
  exact (save_reconcile_idempotent 5 none [demoItem] []
    (by simp [KeysUnique]) (by simp)).1

end AptScanner

